import Mathlib

/-!
Verification of the coding-agent-bridge session supervisor.

This file gives a shallow embedding of the parts of the TypeScript source
relevant to the frozen claims: the shell-quoting utilities and the adapter
command builders (src/utils/shellQuote.ts, src/adapters/ClaudeAdapter.ts,
src/adapters/CodexAdapter.ts), the temporary-file cleanup of
TmuxExecutor.pasteBuffer (src/TmuxExecutor.ts), the SessionManager state
machine (src/SessionManager.ts), the Bridge event handler (src/Bridge.ts) and
the EventProcessor hook pipeline (src/EventProcessor.ts).

Conventions of the embedding:
* JavaScript Maps become association lists with JS Map semantics
  (set updates in place, otherwise appends; iteration in insertion order).
* `Date.now()` becomes an explicit `now : Nat` argument; `randomUUID()`
  becomes an explicit fresh-identifier argument.
* `realpathSync` / `realpath` become an explicit `resolve : String → Option String`
  argument (`none` models the thrown/caught failure, in which case the code
  keeps the original path).
* Template interpolation of a number into a string becomes `natStr`, the
  usual decimal representation.
* Side effects that do not touch supervisor state (killing tmux sessions,
  starting transcript watchers, spawning terminals) are dropped; emitted
  events are recorded in an explicit log.
-/

namespace CAB

/-- JS Map lookup: first entry with the key (keys are unique in a real Map). -/
def jmGet {A : Type} : List (String × A) → String → Option A
  | [], _ => none
  | p :: r, k => if p.1 = k then some p.2 else jmGet r k

/-- Does the map have the key? -/
def jmHas {A : Type} : List (String × A) → String → Bool
  | [], _ => false
  | p :: r, k => if p.1 = k then true else jmHas r k

/-- Replace the value stored under a key (models mutating the stored object
through an alias; does not insert). -/
def jmUpdate {A : Type} : List (String × A) → String → A → List (String × A)
  | [], _, _ => []
  | p :: r, k, v => (if p.1 = k then (k, v) else p) :: jmUpdate r k v

/-- JS Map.set: update in place if the key exists, else append. -/
def jmSet {A : Type} (m : List (String × A)) (k : String) (v : A) : List (String × A) :=
  if jmHas m k then jmUpdate m k v else m ++ [(k, v)]

/-- JS Map.delete. -/
def jmDelete {A : Type} (m : List (String × A)) (k : String) : List (String × A) :=
  m.filter (fun p => p.1 ≠ k)

/-- JS truthiness for an optional string: `undefined` and `""` are falsy. -/
def truthy : Option String → Option String
  | some s => if s = "" then none else some s
  | none => none

/-- `a || b` on optional strings (JS logical or, with `""` falsy). -/
def jsOr (a b : Option String) : Option String :=
  (truthy a).orElse (fun _ => truthy b)

/-- Little-endian decimal digits, with explicit fuel (`fuel ≥ n` suffices). -/
def digitsLE : Nat → Nat → List Nat
  | _, 0 => []
  | 0, _ + 1 => []
  | fuel + 1, n + 1 => ((n + 1) % 10) :: digitsLE fuel ((n + 1) / 10)

/-- Decimal value of a little-endian digit list. -/
def undigits : List Nat → Nat
  | [] => 0
  | d :: r => d + 10 * undigits r

/-- Decimal representation of a natural number, as JS template interpolation
of a non-negative integer produces it. -/
def natStr (n : Nat) : String :=
  if n = 0 then "0" else String.mk (((digitsLE n n).reverse).map Nat.digitChar)

/-- Decode a decimal string back to a number (left inverse of `natStr`). -/
def decodeDec (s : String) : Nat :=
  undigits ((s.data.map (fun c => c.toNat - 48)).reverse)

-- =========================================================================
-- src/utils/shellQuote.ts
-- =========================================================================

/-- Is the character allowed anywhere in a flag key (alphanumeric or hyphen)? -/
def flagKeyChar (c : Char) : Bool :=
  (c ≥ 'a' && c ≤ 'z') || (c ≥ 'A' && c ≤ 'Z') || (c ≥ '0' && c ≤ '9') || c = '-'

/-- Is the character allowed at the ends of a flag key (alphanumeric)? -/
def flagKeyEndChar (c : Char) : Bool :=
  (c ≥ 'a' && c ≤ 'z') || (c ≥ 'A' && c ≤ 'Z') || (c ≥ '0' && c ≤ '9')

/-- The VALID_FLAG_KEY regular expression of src/utils/shellQuote.ts:
nonempty, alphanumeric first and last characters, alphanumeric or hyphen
in between. -/
def validFlagKey (s : String) : Bool :=
  match s.data with
  | [] => false
  | [c] => flagKeyEndChar c
  | c :: rest =>
    flagKeyEndChar c && rest.dropLast.all flagKeyChar &&
      (match rest.getLast? with
       | some d => flagKeyEndChar d
       | none => true)

/-- The single-quote character, written by code point. -/
def sq : Char := Char.ofNat 39

/-- One escaped single quote, the four characters the replacement inserts. -/
def sqEsc : List Char := [sq, '\\', sq, sq]

/-- The global single-quote replacement of `shellQuote`, on the char list. -/
def escQuotes : List Char → List Char
  | [] => []
  | c :: r => (if c = sq then sqEsc else [c]) ++ escQuotes r

/-- `shellQuote` of src/utils/shellQuote.ts: wrap in single quotes, escaping
embedded single quotes. -/
def shellQuote (value : String) : String :=
  String.mk (sq :: escQuotes value.data ++ [sq])

/-- A flag value is a boolean or a string. -/
inductive FlagVal
  | bool (b : Bool)
  | str (s : String)
deriving DecidableEq

/-- `buildSafeFlag` of src/utils/shellQuote.ts: validate the key (throwing on
an invalid one, modelled as `Except.error`), drop `false`, emit a bare flag
for `true` and a shell-quoted assignment for a string. -/
def buildSafeFlag (key : String) (value : FlagVal) : Except String (Option String) :=
  if !validFlagKey key then
    .error ("Invalid flag key: " ++ key)
  else
    match value with
    | .bool false => .ok none
    | .bool true => .ok (some ("--" ++ key))
    | .str v => .ok (some ("--" ++ key ++ "=" ++ shellQuote v))

/-- A flags object, as an association list in JS property order. -/
abbrev Flags : Type := List (String × FlagVal)

/-- JS object spread of two flag objects: keys of the first in order with
overridden values, then keys only in the second, in order. -/
def objMerge (defaults overrides : Flags) : Flags :=
  defaults.map (fun p => (p.1, (jmGet overrides p.1).getD p.2)) ++
    overrides.filter (fun p => !jmHas defaults p.1)

/-- Render one flag entry the way both adapters do it, with NO validation and
NO quoting: `--key` for `true`, `--key=value` verbatim for a string. -/
def rawFlagStr (key : String) (value : FlagVal) : String :=
  match value with
  | .bool _ => "--" ++ key
  | .str v => "--" ++ key ++ "=" ++ v

/-- JS `String.prototype.trim`: strip leading and trailing whitespace. -/
def jsTrim (s : String) : String :=
  String.mk (((s.data.dropWhile Char.isWhitespace).reverse.dropWhile
    Char.isWhitespace).reverse)

/-- `ClaudeAdapter.buildCommand` of src/adapters/ClaudeAdapter.ts: merge the
default flags, drop `false` entries and interpolate each remaining entry
directly into the command string. -/
def claudeBuildCommand (flags : Flags) : String :=
  let merged := objMerge [("dangerously-skip-permissions", .bool true)] flags
  let kept := merged.filter (fun p => p.2 ≠ .bool false)
  let flagsStr := String.intercalate " " (kept.map (fun p => rawFlagStr p.1 p.2))
  jsTrim ("claude " ++ flagsStr)

/-- `CodexAdapter.buildCommand` of src/adapters/CodexAdapter.ts: same raw
interpolation, starting from the `full-auto` default. -/
def codexBuildCommand (flags : Flags) : String :=
  let merged := objMerge [("full-auto", .bool true)] flags
  let kept := merged.filter (fun p => p.2 ≠ .bool false)
  String.intercalate " " ("codex" :: kept.map (fun p => rawFlagStr p.1 p.2))

-- =========================================================================
-- TmuxExecutor.pasteBuffer temporary-file cleanup
-- =========================================================================

/-- A filesystem node is a regular file or a directory. -/
inductive FNode
  | file
  | dir
deriving DecidableEq

/-- A tiny filesystem: paths mapped to nodes. -/
abbrev FS : Type := List (String × FNode)

/-- Look a path up. -/
def fsGet (fs : FS) (p : String) : Option FNode := jmGet fs p

/-- Remove a path. -/
def fsRemove (fs : FS) (p : String) : FS := jmDelete fs p

/-- `fs/promises` unlink: removes a regular file; fails (EISDIR / EPERM) on a
directory and (ENOENT) on a missing path, leaving the filesystem unchanged. -/
def unlinkFS (fs : FS) (p : String) : Except String FS :=
  match fsGet fs p with
  | some .file => .ok (fsRemove fs p)
  | some .dir => .error "EISDIR"
  | none => .error "ENOENT"

/-- The `finally` block of `TmuxExecutor.pasteBuffer`: unlink the temp file,
then attempt to remove the temp DIRECTORY with `unlink` as well, swallowing
every error (`await unlink(tmpFile); await unlink(tmpDir).catch(noop)` inside
a try/catch that ignores cleanup errors). -/
def pasteCleanup (fs : FS) (tmpFile tmpDir : String) : FS :=
  match unlinkFS fs tmpFile with
  | .error _ => fs
  | .ok fs1 =>
    match unlinkFS fs1 tmpDir with
    | .error _ => fs1
    | .ok fs2 => fs2

-- =========================================================================
-- src/SessionManager.ts : data model
-- =========================================================================

/-- Terminal information extracted from a hook payload. -/
structure TerminalInfo where
  tmuxPane : Option String := none
  tmuxSocket : Option String := none
  tty : Option String := none
deriving DecidableEq

/-- Session status. -/
inductive SessionStatus
  | working
  | idle
  | offline
deriving DecidableEq

/-- Session kind: spawned by the bridge (internal) or discovered (external). -/
inductive SessionType
  | internal
  | external
deriving DecidableEq

/-- The Session record of src/types, as stored in the supervisor maps. -/
structure Session where
  id : String
  name : String
  type : SessionType
  agent : String
  status : SessionStatus
  cwd : String
  createdAt : Nat
  lastActivity : Nat
  tmuxSession : Option String := none
  agentSessionId : Option String := none
  currentTool : Option String := none
  terminal : Option TerminalInfo := none
  transcriptPath : Option String := none
deriving DecidableEq

/-- Events emitted by the SessionManager (the EventEmitter signals). -/
inductive BEvent
  | created (s : Session)
  | deleted (s : Session)
  | statusChanged (s : Session) (fromStatus toStatus : SessionStatus)
  | updated (s : Session)
deriving DecidableEq

/-- The mutable state owned by the SessionManager: the two maps, the counter,
the dirty flag; plus a log of emitted events. -/
structure SMState where
  sessions : List (String × Session) := []
  agentToManagedMap : List (String × String) := []
  sessionCounter : Nat := 0
  dirty : Bool := false
  log : List BEvent := []
deriving DecidableEq

/-- The configuration fields the modelled operations consult. -/
structure Config where
  defaultAgent : String := "claude"
  workingTimeoutMs : Nat := 120000
  trackExternalSessions : Bool := true
deriving DecidableEq

/-- Split a character list on the path separator. -/
def splitSlash : List Char → List (List Char)
  | [] => [[]]
  | c :: r =>
    match splitSlash r with
    | [] => [[]]
    | h :: t => if c = '/' then [] :: h :: t else (c :: h) :: t

/-- Node `path.basename`: last nonempty path component; `/` for the root,
`""` for the empty path. -/
def jsBasename (p : String) : String :=
  match ((splitSlash p.data).filter (fun l => l ≠ [])).getLast? with
  | some l => String.mk l
  | none =>
    match p.data with
    | c :: _ => if c = '/' then "/" else ""
    | [] => ""

/-- `cab-<first-8-of-uuid>`, the tmux name minted by createSession. -/
def createTmuxName (id : String) : String := "cab-" ++ id.take 8

/-- `cab-<first-8-of-uuid>-<Date.now()>`, the tmux name minted by restart. -/
def restartTmuxName (id : String) (now : Nat) : String :=
  "cab-" ++ id.take 8 ++ "-" ++ natStr now

-- =========================================================================
-- src/SessionManager.ts : operations
-- =========================================================================

/-- `updateSessionStatus`: same status only bumps `lastActivity`; a real
transition also clears `currentTool` when leaving `working`, marks dirty and
emits `session:status`. The session object is mutated through its alias,
modelled by writing the new value back under its id. -/
def updateSessionStatus (st : SMState) (s : Session) (newStatus : SessionStatus)
    (now : Nat) : Session × SMState :=
  if s.status = newStatus then
    let s1 := { s with lastActivity := now }
    (s1, { st with sessions := jmUpdate st.sessions s.id s1 })
  else
    let s1 := { s with
      status := newStatus
      lastActivity := now
      currentTool := if newStatus ≠ .working then none else s.currentTool }
    (s1, { st with
      sessions := jmUpdate st.sessions s.id s1
      dirty := true
      log := st.log ++ [.statusChanged s1 s.status newStatus] })

/-- `updateSessionTool`: set `currentTool`, bump `lastActivity`, mark dirty. -/
def updateSessionTool (st : SMState) (s : Session) (tool : Option String)
    (now : Nat) : Session × SMState :=
  let s1 := { s with currentTool := tool, lastActivity := now }
  (s1, { st with sessions := jmUpdate st.sessions s.id s1, dirty := true })

/-- The linking-candidate test of `findOrCreateSession`: internal, no agent
session id yet (JS truthiness), same resolved cwd, created within the last
five minutes (`createdAt > Date.now() - 300000`, computed over the
integers as in JS). Note that the source does NOT compare the agent. -/
def linkable (s : Session) (cwd : String) (now : Nat) : Bool :=
  decide (s.type = .internal) && (truthy s.agentSessionId).isNone &&
    decide (s.cwd = cwd) && decide ((s.createdAt : Int) > (now : Int) - 300000)

/-- The fall-through part of `findOrCreateSession` (steps 3 and 4 of the
spec): scan for a linkable internal session, else build an external session —
inserted and mapped when external tracking is on, ephemeral otherwise.
`cwd` is already resolved here. -/
def linkOrCreate (cfg : Config) (st : SMState) (aid agent cwd : String)
    (terminal : Option TerminalInfo) (transcriptPath : Option String)
    (now : Nat) (freshId : String) : Session × SMState :=
  match st.sessions.find? (fun p => linkable p.2 cwd now) with
  | some (_k, s) =>
    let s1 := { s with
      agentSessionId := some aid
      terminal := if terminal.isSome then terminal else s.terminal
      transcriptPath :=
        if (truthy transcriptPath).isSome then transcriptPath else s.transcriptPath }
    (s1, { st with
      sessions := jmUpdate st.sessions s1.id s1
      agentToManagedMap := jmSet st.agentToManagedMap aid s1.id
      dirty := true })
  | none =>
    if !cfg.trackExternalSessions then
      let bn := jsBasename cwd
      let temp : Session := {
        id := freshId
        name := if bn = "" then "external" else bn
        type := .external
        agent := agent
        status := .working
        cwd := cwd
        createdAt := now
        lastActivity := now
        agentSessionId := some aid
        terminal := terminal
        transcriptPath := transcriptPath }
      (temp, st)
    else
      let bn := jsBasename cwd
      let nm := if bn = "" then "external-" ++ natStr (st.sessionCounter + 1) else bn
      let counter := if bn = "" then st.sessionCounter + 1 else st.sessionCounter
      let session : Session := {
        id := freshId
        name := nm
        type := .external
        agent := agent
        status := .working
        cwd := cwd
        createdAt := now
        lastActivity := now
        agentSessionId := some aid
        terminal := terminal
        transcriptPath := transcriptPath }
      (session, { st with
        sessions := jmSet st.sessions freshId session
        agentToManagedMap := jmSet st.agentToManagedMap aid freshId
        sessionCounter := counter
        dirty := true
        log := st.log ++ [.created session] })

/-- `findOrCreateSession` of src/SessionManager.ts. Arguments mirror the
call: the incoming agent session id, agent name, cwd, optional terminal and
transcript path; plus the explicit effects (symlink resolution, clock, fresh
UUID for a possibly created external session). An existing live mapping
returns that session (updating terminal, and transcript path when none was
known); otherwise the scan/create fall-through runs. -/
def findOrCreateSession (cfg : Config) (st : SMState) (aid agent cwd0 : String)
    (terminal : Option TerminalInfo) (transcriptPath : Option String)
    (resolve : String → Option String) (now : Nat) (freshId : String) :
    Session × SMState :=
  let cwd := (resolve cwd0).getD cwd0
  let hit : Option Session :=
    match jmGet st.agentToManagedMap aid with
    | some existingId => jmGet st.sessions existingId
    | none => none
  match hit with
  | some s =>
    let s2 := { s with
      terminal := if terminal.isSome then terminal else s.terminal
      transcriptPath :=
        if (truthy transcriptPath).isSome && (truthy s.transcriptPath).isNone then
          transcriptPath
        else s.transcriptPath }
    (s2, { st with sessions := jmUpdate st.sessions s2.id s2 })
  | none => linkOrCreate cfg st aid agent cwd terminal transcriptPath now freshId

/-- The create options the modelled `createSession` consumes. -/
structure CreateOptions where
  name : Option String := none
  cwd : Option String := none
  agent : Option String := none
  flags : Flags := []
deriving DecidableEq

/-- `createSession` of src/SessionManager.ts. `adapters` is the set of
registered adapter names; `tmuxOk` is whether `tmux.createSession` succeeds
(a duplicate name or a nonzero exit make it throw); `home` is
`process.env.HOME`. On a thrown error the state is returned unchanged, since
every mutation in the source happens after the points that can throw. -/
def createSession (cfg : Config) (st : SMState) (opts : CreateOptions)
    (adapters : List String) (tmuxOk : Bool) (freshId : String)
    (resolve : String → Option String) (home : Option String) (now : Nat) :
    Except String Session × SMState :=
  let agent := opts.agent.getD cfg.defaultAgent
  if ¬ agent ∈ adapters then
    (.error ("No adapter registered for agent: " ++ agent), st)
  else
    let rawCwd := opts.cwd.getD (home.getD "/tmp")
    let cwd := (resolve rawCwd).getD rawCwd
    let name := opts.name.getD (jsBasename cwd)
    if ¬ tmuxOk then
      (.error "tmux createSession failed", st)
    else
      let session : Session := {
        id := freshId
        name := name
        type := .internal
        agent := agent
        status := .working
        cwd := cwd
        createdAt := now
        lastActivity := now
        tmuxSession := some (createTmuxName freshId) }
      (.ok session, { st with
        sessions := jmSet st.sessions freshId session
        dirty := true
        log := st.log ++ [.created session] })

/-- `deleteSession` of src/SessionManager.ts: remove the session, drop every
`byAgentId` entry pointing at it, mark dirty, emit `session:deleted`. -/
def deleteSession (st : SMState) (id : String) : Bool × SMState :=
  match jmGet st.sessions id with
  | none => (false, st)
  | some s =>
    (true, { st with
      sessions := jmDelete st.sessions id
      agentToManagedMap := st.agentToManagedMap.filter (fun p => p.2 ≠ id)
      dirty := true
      log := st.log ++ [.deleted s] })

/-- `restart` of src/SessionManager.ts: only for an existing internal offline
session with a registered adapter; mint a fresh tmux name carrying
`Date.now()`, clear `agentSessionId`, go to `working` (via
updateSessionStatus, which emits), drop the agent-map entries pointing at
this session, mark dirty. -/
def restart (st : SMState) (id : String) (adapters : List String) (now : Nat) :
    Option Session × SMState :=
  match jmGet st.sessions id with
  | none => (none, st)
  | some s =>
    if s.type = .external then (none, st)
    else if s.status ≠ .offline then (none, st)
    else if ¬ s.agent ∈ adapters then (none, st)
    else
      let s1 := { s with
        tmuxSession := some (restartTmuxName s.id now)
        agentSessionId := none }
      let s2 := { s1 with status := .working, lastActivity := now }
      (some s2, { st with
        sessions := jmUpdate st.sessions s.id s2
        agentToManagedMap := st.agentToManagedMap.filter (fun p => p.2 ≠ s.id)
        dirty := true
        log := st.log ++ [.statusChanged s2 s.status .working] })

-- =========================================================================
-- src/SessionManager.ts : persistence
-- =========================================================================

/-- The on-disk record of sessions.json. -/
structure PersistedState where
  sessions : List Session
  agentToManagedMap : List (String × String)
  sessionCounter : Nat
deriving DecidableEq

/-- `save`: snapshot the session values, the agent map entries, the counter. -/
def saveState (st : SMState) : PersistedState :=
  { sessions := st.sessions.map (fun p => p.2)
    agentToManagedMap := st.agentToManagedMap
    sessionCounter := st.sessionCounter }

/-- The per-session fix-up `load` applies: internal sessions are forced
offline with their terminal cleared (tmux state is not preserved). -/
def loadFix (s : Session) : Session :=
  if s.type = .internal then { s with status := .offline, terminal := none } else s

/-- `load`: clear the maps, repopulate from the record (applying `loadFix`),
restore the agent map and the counter, reset `dirty`. -/
def loadState (st : SMState) (p : PersistedState) : SMState :=
  { sessions := p.sessions.foldl (fun m s => jmSet m s.id (loadFix s)) []
    agentToManagedMap := p.agentToManagedMap.foldl (fun m q => jmSet m q.1 q.2) []
    sessionCounter := p.sessionCounter
    dirty := false
    log := st.log }

/-- `forceSave`: set dirty, then save (which writes and clears dirty).
Returns the written record and the post-save state. -/
def forceSaveState (st : SMState) : PersistedState × SMState :=
  (saveState st, { st with dirty := false })

-- =========================================================================
-- src/EventProcessor.ts and the two adapter parseHookEvent functions
-- =========================================================================

/-- The canonical event kinds the pipeline produces. -/
inductive EventType
  | pre_tool_use
  | post_tool_use
  | stop
  | subagent_stop
  | session_start
  | session_end
  | user_prompt_submit
  | notification
deriving DecidableEq

/-- A completed AgentEvent (after validateEvent). Fields the claims never
inspect (tool inputs and responses, ids of tool uses) are represented only
where an adapter sets them from a string. -/
structure AgentEvent where
  id : String
  timestamp : Nat
  type : EventType
  agent : String
  sessionId : Option String := none
  agentSessionId : Option String := none
  cwd : Option String := none
  tool : Option String := none
  message : Option String := none
  level : Option String := none
  source : Option String := none
  terminal : Option TerminalInfo := none
deriving DecidableEq

/-- A partial event as returned by an adapter parseHookEvent; validateEvent
requires `type` and `agent` and fills `id` and `timestamp`. -/
structure PartialEvent where
  id : Option String := none
  timestamp : Option Nat := none
  type : Option EventType := none
  agent : Option String := none
  agentSessionId : Option String := none
  cwd : Option String := none
  tool : Option String := none
  message : Option String := none
  level : Option String := none
  source : Option String := none
  terminal : Option TerminalInfo := none
deriving DecidableEq

/-- The raw hook payload (one parsed JSON line of events.jsonl). Structured
fields whose contents the pipeline never reads are represented by their
presence (`Option Unit`). -/
structure RawHookEvent where
  event_type : Option String := none
  type : Option String := none
  hook_type : Option String := none
  hook_event_name : Option String := none
  cwd : Option String := none
  working_directory : Option String := none
  session_id : Option String := none
  claude_session_id : Option String := none
  thread_id : Option String := none
  tmux_pane : Option String := none
  tmux_socket : Option String := none
  tty : Option String := none
  agent : Option String := none
  tool_name : Option String := none
  tool : Option String := none
  tool_input : Option Unit := none
  input : Option Unit := none
  message : Option String := none
  level : Option String := none
  response : Option String := none
  error : Option String := none
  success : Option Bool := none
  source : Option String := none
  transcript_path : Option String := none
deriving DecidableEq

/-- The ProcessedEvent interface of src/EventProcessor.ts (note: it carries
no transcriptPath field). -/
structure ProcessedEvent where
  event : AgentEvent
  agentSessionId : String
  agent : String
  terminal : Option TerminalInfo := none
  cwd : Option String := none
deriving DecidableEq

/-- The Claude hook vocabulary, mapped to canonical kinds. -/
def claudeTypeMap (hookName : String) : Option EventType :=
  if hookName = "PreToolUse" then some .pre_tool_use
  else if hookName = "PostToolUse" then some .post_tool_use
  else if hookName = "Stop" then some .stop
  else if hookName = "SubagentStop" then some .subagent_stop
  else if hookName = "SessionStart" then some .session_start
  else if hookName = "SessionEnd" then some .session_end
  else if hookName = "UserPromptSubmit" then some .user_prompt_submit
  else if hookName = "Notification" then some .notification
  else none

/-- `ClaudeAdapter.parseHookEvent` of src/adapters/ClaudeAdapter.ts: map the
hook name, take cwd from the payload (falling back to the process cwd), the
agent session id from `session_id`, and for tool events the tool name from
the payload `tool` field. It sets no id and no timestamp. -/
def claudeParseHookEvent (hookName : String) (d : RawHookEvent)
    (procCwd : String) : Option PartialEvent :=
  match claudeTypeMap hookName with
  | none => none
  | some ty =>
    some { type := some ty
           agent := some "claude"
           cwd := some (d.cwd.getD procCwd)
           agentSessionId := d.session_id
           tool :=
             if ty = .pre_tool_use ∨ ty = .post_tool_use then d.tool else none }

/-- `parseTerminalInfo` of src/adapters/CodexAdapter.ts. -/
def codexParseTerminalInfo (d : RawHookEvent) : Option TerminalInfo :=
  if (truthy d.tmux_pane).isSome ∨ (truthy d.tmux_socket).isSome ∨
      (truthy d.tty).isSome then
    some { tmuxPane := d.tmux_pane, tmuxSocket := d.tmux_socket, tty := d.tty }
  else none

/-- `CodexAdapter.parseHookEvent` of src/adapters/CodexAdapter.ts: only the
`notify` hook is recognized; the codex `event_type` selects the kind, with
everything unknown becoming a notification. It fills id and timestamp
itself (`randomUUID()` and `Date.now()`). -/
def codexParseHookEvent (hookName : String) (d : RawHookEvent)
    (uuid : String) (now : Nat) (procCwd : String) : Option PartialEvent :=
  if hookName ≠ "notify" then none
  else
    let base : PartialEvent := {
      id := some uuid
      timestamp := some now
      agent := some "codex"
      cwd := some (d.cwd.getD procCwd)
      agentSessionId := d.thread_id }
    if d.event_type = some "tool_start" then
      some { base with type := some .pre_tool_use, tool := some (d.tool.getD "unknown") }
    else if d.event_type = some "tool_end" then
      some { base with type := some .post_tool_use, tool := some (d.tool.getD "unknown") }
    else if d.event_type = some "response" then
      some { base with type := some .stop }
    else if d.event_type = some "session_start" then
      some { base with
        type := some .session_start
        source := some "codex"
        terminal := codexParseTerminalInfo d }
    else if d.event_type = some "session_end" then
      some { base with type := some .session_end }
    else
      some { base with
        type := some .notification
        message := match d.message with
          | some m => some m
          | none => d.error
        level := if d.event_type = some "error" then some "error" else some "info" }

/-- The Claude hook-name vocabulary used by agent detection. -/
def claudeHookTypes : List String :=
  ["PreToolUse", "PostToolUse", "Stop", "SubagentStop", "SessionStart",
   "SessionEnd", "UserPromptSubmit", "Notification"]

/-- The codex hook-name vocabulary used by agent detection. -/
def codexHookTypes : List String := ["exec_start", "exec_end", "message", "error"]

/-- `detectAgent` of src/EventProcessor.ts: explicit agent field, then
Claude indicators, hook-name vocabularies, then the shape of tool fields. -/
def detectAgent (raw : RawHookEvent) : Option String :=
  if raw.agent = some "claude" ∨ raw.agent = some "codex" then raw.agent
  else if (truthy raw.claude_session_id).isSome then some "claude"
  else
    let hookType := jsOr raw.hook_event_name (jsOr raw.hook_type (jsOr raw.type raw.event_type))
    match hookType with
    | some h =>
      if h ∈ claudeHookTypes then some "claude"
      else if h ∈ codexHookTypes then some "codex"
      else if (truthy raw.tool_name).isSome ∧ raw.tool_input.isSome then some "claude"
      else if (truthy raw.tool).isSome ∧ raw.input.isSome then some "codex"
      else none
    | none =>
      if (truthy raw.tool_name).isSome ∧ raw.tool_input.isSome then some "claude"
      else if (truthy raw.tool).isSome ∧ raw.input.isSome then some "codex"
      else none

/-- The session-id fallback `extractSessionId` of src/EventProcessor.ts:
`claude_session_id`, `session_id`, `codex-<tmux_pane>` (codex only), then
`<agent>-<tty>`. -/
def rawExtractSessionId (raw : RawHookEvent) (agent : String) : Option String :=
  match truthy raw.claude_session_id with
  | some c => some c
  | none =>
    match truthy raw.session_id with
    | some s => some s
    | none =>
      match (if agent = "codex" then truthy raw.tmux_pane else none) with
      | some p => some ("codex-" ++ p)
      | none =>
        match truthy raw.tty with
        | some t => some (agent ++ "-" ++ t)
        | none => none

/-- `extractTerminalInfo` of src/EventProcessor.ts. -/
def extractTerminalInfo (raw : RawHookEvent) : Option TerminalInfo :=
  if (truthy raw.tmux_pane).isNone ∧ (truthy raw.tty).isNone then none
  else some { tmuxPane := raw.tmux_pane, tmuxSocket := raw.tmux_socket, tty := raw.tty }

/-- `validateEvent` of src/EventProcessor.ts: require `type` and `agent`,
fill `id` and `timestamp` when missing or falsy. -/
def validateEvent (partialEvt : PartialEvent) (genId : String) (now : Nat) :
    Option AgentEvent :=
  match partialEvt.type, partialEvt.agent with
  | some ty, some ag =>
    some { id := (truthy partialEvt.id).getD genId
           timestamp :=
             match partialEvt.timestamp with
             | some t => if t = 0 then now else t
             | none => now
           type := ty
           agent := ag
           agentSessionId := partialEvt.agentSessionId
           cwd := partialEvt.cwd
           tool := partialEvt.tool
           message := partialEvt.message
           level := partialEvt.level
           source := partialEvt.source
           terminal := partialEvt.terminal }
  | _, _ => none

/-- `EventProcessor.processLine` on an already-parsed payload, with the two
default adapters registered: detect the agent, resolve the hook name,
delegate to the adapter, validate, extract the session id, terminal info
and cwd. `none` is a dropped record. -/
def processLine (raw : RawHookEvent) (uuid : String) (now : Nat)
    (procCwd : String) : Option ProcessedEvent :=
  match detectAgent raw with
  | none => none
  | some agent =>
    let hookName :=
      (jsOr raw.hook_event_name (jsOr raw.hook_type (jsOr raw.type raw.event_type))).getD ""
    let parsed :=
      if agent = "claude" then claudeParseHookEvent hookName raw procCwd
      else codexParseHookEvent hookName raw uuid now procCwd
    match parsed with
    | none => none
    | some partialEvt =>
      match validateEvent partialEvt uuid now with
      | none => none
      | some event =>
        match jsOr partialEvt.agentSessionId (rawExtractSessionId raw agent) with
        | none => none
        | some aid =>
          some { event := event
                 agentSessionId := aid
                 agent := agent
                 terminal := extractTerminalInfo raw
                 cwd := jsOr raw.cwd raw.working_directory }

-- =========================================================================
-- src/Bridge.ts : the wired event handler
-- =========================================================================

/-- The `eventProcessor.on(event, ...)` handler of Bridge.wireComponents:
find or create the session, then switch on the event kind to update status
and tool. The Bridge reads `processed.transcriptPath`, a field the
ProcessedEvent interface does not carry, so `none` is passed through.
`notification` events match no case of the switch. -/
def applyEvent (cfg : Config) (st : SMState) (pe : ProcessedEvent)
    (resolve : String → Option String) (now : Nat) (freshId : String)
    (procCwd : String) : Session × SMState :=
  let r := findOrCreateSession cfg st pe.agentSessionId pe.agent
    (pe.cwd.getD procCwd) pe.terminal none resolve now freshId
  let session := r.1
  let st1 := r.2
  match pe.event.type with
  | .pre_tool_use =>
    let r2 := updateSessionStatus st1 session .working now
    updateSessionTool r2.2 r2.1 pe.event.tool now
  | .post_tool_use => updateSessionTool st1 session none now
  | .stop => updateSessionStatus st1 session .idle now
  | .subagent_stop => updateSessionStatus st1 session .idle now
  | .user_prompt_submit => updateSessionStatus st1 session .working now
  | .session_end => updateSessionStatus st1 session .offline now
  | .session_start => updateSessionStatus st1 session .working now
  | .notification => (session, st1)

/-- One line arriving from the events file: processLine, and on success the
Bridge handler; a dropped line leaves the supervisor untouched. -/
def feedLine (cfg : Config) (st : SMState) (raw : RawHookEvent) (uuid : String)
    (now : Nat) (procCwd : String) (resolve : String → Option String)
    (freshId : String) : SMState :=
  match processLine raw uuid now procCwd with
  | none => st
  | some pe => (applyEvent cfg st pe resolve now freshId procCwd).2

-- =========================================================================
-- Association-map lemmas
-- =========================================================================

theorem jmGet_update_ne {A : Type} (m : List (String × A)) (k k' : String) (v : A)
    (h : k' ≠ k) : jmGet (jmUpdate m k v) k' = jmGet m k' := by
  induction m with
  | nil => rfl
  | cons p r ih =>
    by_cases hp : p.1 = k
    · simp only [jmUpdate, if_pos hp, jmGet]
      rw [if_neg (fun hk => h hk.symm), if_neg (fun hk => h (hp ▸ hk).symm)]
      exact ih
    · simp only [jmUpdate, if_neg hp, jmGet]
      by_cases hq : p.1 = k'
      · simp [hq]
      · simp only [if_neg hq]
        exact ih

theorem jmGet_update_self {A : Type} (m : List (String × A)) (k : String) (v : A)
    (h : jmHas m k = true) : jmGet (jmUpdate m k v) k = some v := by
  induction m with
  | nil => simp [jmHas] at h
  | cons p r ih =>
    by_cases hp : p.1 = k
    · simp [jmUpdate, if_pos hp, jmGet]
    · simp only [jmHas, if_neg hp] at h
      simp only [jmUpdate, if_neg hp, jmGet, if_neg hp]
      exact ih h

theorem jmHas_of_get {A : Type} (m : List (String × A)) (k : String) (v : A)
    (h : jmGet m k = some v) : jmHas m k = true := by
  induction m with
  | nil => simp [jmGet] at h
  | cons p r ih =>
    by_cases hp : p.1 = k
    · simp [jmHas, hp]
    · simp only [jmGet, if_neg hp] at h
      simp only [jmHas, if_neg hp]
      exact ih h

theorem jmGet_none_of_not_has {A : Type} (m : List (String × A)) (k : String)
    (h : jmHas m k = false) : jmGet m k = none := by
  induction m with
  | nil => rfl
  | cons p r ih =>
    by_cases hp : p.1 = k
    · simp [jmHas, hp] at h
    · simp only [jmHas, if_neg hp] at h
      simp only [jmGet, if_neg hp]
      exact ih h

theorem jmGet_append {A : Type} (m l : List (String × A)) (k : String) :
    jmGet (m ++ l) k = match jmGet m k with
      | some v => some v
      | none => jmGet l k := by
  induction m with
  | nil => rfl
  | cons p r ih =>
    by_cases hp : p.1 = k
    · simp [jmGet, hp]
    · simp only [List.cons_append, jmGet, if_neg hp]
      exact ih

theorem jmGet_set_self {A : Type} (m : List (String × A)) (k : String) (v : A) :
    jmGet (jmSet m k v) k = some v := by
  unfold jmSet
  by_cases h : jmHas m k = true
  · rw [if_pos h]
    exact jmGet_update_self m k v h
  · rw [if_neg h]
    rw [jmGet_append]
    rw [jmGet_none_of_not_has m k (by simpa using h)]
    simp [jmGet]

theorem jmGet_set_ne {A : Type} (m : List (String × A)) (k k' : String) (v : A)
    (h : k' ≠ k) : jmGet (jmSet m k v) k' = jmGet m k' := by
  unfold jmSet
  by_cases hh : jmHas m k = true
  · rw [if_pos hh]
    exact jmGet_update_ne m k k' v h
  · rw [if_neg hh]
    rw [jmGet_append]
    have hkk : ¬ k = k' := fun hk => h hk.symm
    cases hg : jmGet m k' with
    | some v' => simp
    | none => simp [jmGet, hkk]

theorem jmGet_delete_ne {A : Type} (m : List (String × A)) (k k' : String)
    (h : k' ≠ k) : jmGet (jmDelete m k) k' = jmGet m k' := by
  induction m with
  | nil => rfl
  | cons p r ih =>
    show jmGet (List.filter (fun q => decide (q.1 ≠ k)) (p :: r)) k' = jmGet (p :: r) k'
    rw [List.filter_cons]
    by_cases hp : p.1 = k
    · rw [show (decide (p.1 ≠ k)) = false by simp [hp]]
      simp only [Bool.false_eq_true, if_false]
      have hq : ¬ p.1 = k' := fun hk => h (by rw [← hk]; exact hp)
      rw [show jmGet (p :: r) k' = jmGet r k' from by simp [jmGet, hq]]
      exact ih
    · rw [show (decide (p.1 ≠ k)) = true by simp [hp]]
      simp only [if_true]
      by_cases hq : p.1 = k'
      · simp [jmGet, hq]
      · simp only [jmGet, if_neg hq]
        exact ih

theorem mem_of_jmGet {A : Type} (m : List (String × A)) (k : String) (v : A)
    (h : jmGet m k = some v) : (k, v) ∈ m := by
  induction m with
  | nil => simp [jmGet] at h
  | cons p r ih =>
    obtain ⟨p1, p2⟩ := p
    by_cases hp : p1 = k
    · simp only [jmGet, if_pos hp] at h
      have hv : p2 = v := by simpa using h
      exact List.mem_cons.mpr (Or.inl (by rw [hp, hv]))
    · simp only [jmGet, if_neg hp] at h
      exact List.mem_cons_of_mem _ (ih h)

theorem jmGet_of_mem_nodup {A : Type} (m : List (String × A)) (k : String) (v : A)
    (hnd : (m.map Prod.fst).Nodup) (h : (k, v) ∈ m) : jmGet m k = some v := by
  induction m with
  | nil => simp at h
  | cons p r ih =>
    have hnd2 : p.1 ∉ r.map Prod.fst ∧ (r.map Prod.fst).Nodup := by
      have := hnd
      rw [List.map_cons, List.nodup_cons] at this
      exact this
    rcases List.mem_cons.mp h with h1 | h1
    · rw [← h1]
      simp [jmGet]
    · have hp : p.1 ≠ k := by
        intro hk
        have hm : k ∈ r.map Prod.fst := List.mem_map.mpr ⟨(k, v), h1, rfl⟩
        exact hnd2.1 (hk ▸ hm)
      simp only [jmGet, if_neg hp]
      exact ih hnd2.2 h1

theorem mem_jmUpdate {A : Type} (m : List (String × A)) (k : String) (v : A)
    (q : String × A) (h : q ∈ jmUpdate m k v) :
    q = (k, v) ∨ (q ∈ m ∧ q.1 ≠ k) := by
  induction m with
  | nil => simp [jmUpdate] at h
  | cons p r ih =>
    by_cases hp : p.1 = k
    · simp only [jmUpdate, if_pos hp, List.mem_cons] at h
      rcases h with h1 | h1
      · exact Or.inl h1
      · rcases ih h1 with h2 | h2
        · exact Or.inl h2
        · exact Or.inr ⟨List.mem_cons_of_mem _ h2.1, h2.2⟩
    · simp only [jmUpdate, if_neg hp, List.mem_cons] at h
      rcases h with h1 | h1
      · subst h1
        exact Or.inr ⟨List.mem_cons_self _ _, hp⟩
      · rcases ih h1 with h2 | h2
        · exact Or.inl h2
        · exact Or.inr ⟨List.mem_cons_of_mem _ h2.1, h2.2⟩

theorem keys_ne_of_not_has {A : Type} (m : List (String × A)) (k : String)
    (h : jmHas m k = false) : ∀ q ∈ m, q.1 ≠ k := by
  induction m with
  | nil => simp
  | cons p r ih =>
    by_cases hp : p.1 = k
    · simp [jmHas, hp] at h
    · simp only [jmHas, if_neg hp] at h
      intro q hq
      rcases List.mem_cons.mp hq with h1 | h1
      · exact h1 ▸ hp
      · exact ih h q h1

theorem mem_jmSet {A : Type} (m : List (String × A)) (k : String) (v : A)
    (q : String × A) (h : q ∈ jmSet m k v) :
    q = (k, v) ∨ (q ∈ m ∧ q.1 ≠ k) := by
  unfold jmSet at h
  by_cases hh : jmHas m k = true
  · rw [if_pos hh] at h
    exact mem_jmUpdate m k v q h
  · rw [if_neg hh] at h
    rcases List.mem_append.mp h with h1 | h1
    · exact Or.inr ⟨h1, keys_ne_of_not_has m k (by simpa using hh) q h1⟩
    · simp at h1
      exact Or.inl h1

-- =========================================================================
-- Decimal strings are injective; tmux-name facts
-- =========================================================================

theorem digitsLE_lt : ∀ (fuel n : Nat), ∀ d ∈ digitsLE fuel n, d < 10 := by
  intro fuel
  induction fuel with
  | zero =>
    intro n d hd
    cases n <;> simp [digitsLE] at hd
  | succ f ih =>
    intro n d hd
    cases n with
    | zero => simp [digitsLE] at hd
    | succ m =>
      simp only [digitsLE, List.mem_cons] at hd
      rcases hd with h1 | h1
      · subst h1
        exact Nat.mod_lt _ (by norm_num)
      · exact ih _ _ h1

theorem undigits_digitsLE : ∀ (fuel n : Nat), n ≤ fuel →
    undigits (digitsLE fuel n) = n := by
  intro fuel
  induction fuel with
  | zero =>
    intro n h
    interval_cases n
    rfl
  | succ f ih =>
    intro n h
    cases n with
    | zero => rfl
    | succ m =>
      have hdiv : (m + 1) / 10 ≤ f := by
        have h1 : (m + 1) / 10 < m + 1 := Nat.div_lt_self (Nat.succ_pos m) (by norm_num)
        omega
      simp only [digitsLE, undigits]
      rw [ih _ hdiv]
      exact Nat.mod_add_div (m + 1) 10

theorem digitChar_decode : ∀ d, d < 10 → (Nat.digitChar d).toNat - 48 = d := by decide

theorem decodeDec_natStr (n : Nat) : decodeDec (natStr n) = n := by
  by_cases h : n = 0
  · subst h
    rfl
  · unfold natStr
    rw [if_neg h]
    unfold decodeDec
    have hdata : (String.mk (((digitsLE n n).reverse).map Nat.digitChar)).data
        = ((digitsLE n n).reverse).map Nat.digitChar := rfl
    rw [hdata, List.map_map]
    have hmap : ((digitsLE n n).reverse).map ((fun c => c.toNat - 48) ∘ Nat.digitChar)
        = (digitsLE n n).reverse := by
      have : ∀ d ∈ (digitsLE n n).reverse,
          ((fun c => c.toNat - 48) ∘ Nat.digitChar) d = id d := by
        intro d hd
        have hlt : d < 10 := digitsLE_lt n n d (List.mem_reverse.mp hd)
        simp [Function.comp, digitChar_decode d hlt]
      rw [List.map_congr_left this, List.map_id]
    rw [hmap, List.reverse_reverse]
    exact undigits_digitsLE n n le_rfl

theorem natStr_inj {a b : Nat} (h : natStr a = natStr b) : a = b := by
  have := congrArg decodeDec h
  rwa [decodeDec_natStr, decodeDec_natStr] at this

theorem natStr_length_pos (n : Nat) : 0 < (natStr n).length := by
  unfold natStr
  by_cases h : n = 0
  · rw [if_pos h]
    decide
  · rw [if_neg h]
    show 0 < (((digitsLE n n).reverse).map Nat.digitChar).length
    simp only [List.length_map, List.length_reverse]
    cases n with
    | zero => exact absurd rfl h
    | succ m => simp [digitsLE]

theorem string_append_left_cancel {a b c : String} (h : a ++ b = a ++ c) : b = c := by
  have hd : (a ++ b).data = (a ++ c).data := by rw [h]
  simp only [String.data_append] at hd
  exact String.ext (List.append_cancel_left hd)

/-- A restart name is never equal to the plain create name of the same id:
it is strictly longer. -/
theorem createName_ne_restartName (id : String) (t : Nat) :
    createTmuxName id ≠ restartTmuxName id t := by
  intro h
  have hl := congrArg String.length h
  simp only [createTmuxName, restartTmuxName, String.length_append] at hl
  have hp := natStr_length_pos t
  omega

/-- Restart names of the same session at different times differ. -/
theorem restartName_inj (id : String) (t1 t2 : Nat)
    (h : restartTmuxName id t1 = restartTmuxName id t2) : t1 = t2 := by
  unfold restartTmuxName at h
  have h1 : ("cab-" ++ id.take 8 ++ "-") ++ natStr t1
      = ("cab-" ++ id.take 8 ++ "-") ++ natStr t2 := by
    have ha : ∀ s : String, "cab-" ++ id.take 8 ++ "-" ++ s
        = ("cab-" ++ id.take 8 ++ "-") ++ s := by
      intro s
      apply String.ext
      simp [String.data_append]
    rw [← ha, ← ha]
    exact h
  exact natStr_inj (string_append_left_cancel h1)

-- =========================================================================
-- State invariants
-- =========================================================================

/-- Every stored session is keyed by its own id (true of every state the
source can build, since every insertion uses `session.id` as the key). -/
def wfIds (st : SMState) : Prop := ∀ p ∈ st.sessions, p.2.id = p.1

/-- The session map has no duplicate keys (JS Map keys are unique). -/
def sessionKeysNodup (st : SMState) : Prop := (st.sessions.map Prod.fst).Nodup

/-- The byAgentId consistency invariant of the spec, as an executable check:
every entry `(a, s)` of `agentToManagedMap` points at a stored session whose
`agentSessionId` is `a`. -/
def agentMapConsistent (st : SMState) : Bool :=
  st.agentToManagedMap.all (fun q =>
    match jmGet st.sessions q.2 with
    | some s => decide (s.agentSessionId = some q.1)
    | none => false)

theorem agentMapConsistent_iff (st : SMState) :
    agentMapConsistent st = true ↔
      ∀ q ∈ st.agentToManagedMap, ∃ s, jmGet st.sessions q.2 = some s ∧
        s.agentSessionId = some q.1 := by
  unfold agentMapConsistent
  rw [List.all_eq_true]
  constructor
  · intro h q hq
    have hh := h q hq
    cases hg : jmGet st.sessions q.2 with
    | none => rw [hg] at hh; simp at hh
    | some s =>
      rw [hg] at hh
      exact ⟨s, rfl, by simpa using hh⟩
  · intro h q hq
    obtain ⟨s, hs, ha⟩ := h q hq
    rw [hs]
    simpa using ha

/-- The currentTool invariant of the spec, as an executable check: a session
that is not `working` has no `currentTool`. -/
def toolInvariant (st : SMState) : Bool :=
  st.sessions.all (fun p =>
    decide (p.2.status = .working) || decide (p.2.currentTool = none))

theorem toolInvariant_iff (st : SMState) :
    toolInvariant st = true ↔
      ∀ p ∈ st.sessions, p.2.status ≠ .working → p.2.currentTool = none := by
  unfold toolInvariant
  rw [List.all_eq_true]
  constructor
  · intro h p hp hs
    have hh := h p hp
    rcases Bool.or_eq_true_iff.mp hh with h1 | h1
    · exact absurd (of_decide_eq_true h1) hs
    · exact of_decide_eq_true h1
  · intro h p hp
    by_cases hs : p.2.status = .working
    · simp [hs]
    · simp [h p hp hs]

-- =========================================================================
-- C1 : the linking loop does not compare the agent
-- =========================================================================

/-- The state of the C1 and C3 counterexamples: one unlinked internal claude
session in `/tmp/proj`, created at time 1000. -/
def claudeOnlyState : SMState :=
  { sessions := [("11111111-aaaa-bbbb",
      { id := "11111111-aaaa-bbbb"
        name := "proj"
        type := .internal
        agent := "claude"
        status := .working
        cwd := "/tmp/proj"
        createdAt := 1000
        lastActivity := 1000
        tmuxSession := some "cab-11111111" })]
    agentToManagedMap := []
    sessionCounter := 0
    dirty := false
    log := [] }

/-- C1. The claim says a `codex` call never links an unlinked internal
`claude` session. The source loop at src/SessionManager.ts:441 checks kind,
unset agentSessionId, cwd and recency but NOT the agent, so the codex hook
adopts the claude session: the call links it (sets its `agentSessionId` to
the codex thread id), creates no new session, and maps the codex id to the
claude session. This contradicts the claim (and the regression test for
issue 32 in the test suite). -/
theorem findOrCreateSession_links_cross_agent :
    (findOrCreateSession { defaultAgent := "claude" } claudeOnlyState
        "C" "codex" "/tmp/proj" none none (fun _ => none) 2000
        "22222222-cccc-dddd").1.agent = "claude"
    ∧ (findOrCreateSession { defaultAgent := "claude" } claudeOnlyState
        "C" "codex" "/tmp/proj" none none (fun _ => none) 2000
        "22222222-cccc-dddd").1.agentSessionId = some "C"
    ∧ (findOrCreateSession { defaultAgent := "claude" } claudeOnlyState
        "C" "codex" "/tmp/proj" none none (fun _ => none) 2000
        "22222222-cccc-dddd").1.type = .internal
    ∧ (findOrCreateSession { defaultAgent := "claude" } claudeOnlyState
        "C" "codex" "/tmp/proj" none none (fun _ => none) 2000
        "22222222-cccc-dddd").2.sessions.length = 1
    ∧ (findOrCreateSession { defaultAgent := "claude" } claudeOnlyState
        "C" "codex" "/tmp/proj" none none (fun _ => none) 2000
        "22222222-cccc-dddd").2.agentToManagedMap
        = [("C", "11111111-aaaa-bbbb")] := by
  refine ⟨?_, ?_, ?_, ?_, ?_⟩ <;> decide

-- =========================================================================
-- C2 : buildCommand neither quotes values nor validates keys
-- =========================================================================

/-- C2. The claim says every string flag is emitted single-quoted and every
invalid key makes buildCommand fail with InvalidFlagKey. Both adapters
interpolate raw values (`--key=value`) and never call the validator, so a
value with shell metacharacters is emitted unquoted and an invalid key is
emitted instead of failing; `buildSafeFlag`, which does implement the claimed
behavior, is exercised only by the test suite. -/
theorem buildCommand_raw_interpolation :
    claudeBuildCommand [("model", .str "x; touch /tmp/bridge-rce")]
      = "claude --dangerously-skip-permissions --model=x; touch /tmp/bridge-rce"
    ∧ codexBuildCommand [("model;rm", .str "v")]
      = "codex --full-auto --model;rm=v"
    ∧ validFlagKey "model;rm" = false
    ∧ buildSafeFlag "model;rm" (.str "v")
      = .error "Invalid flag key: model;rm"
    ∧ buildSafeFlag "model" (.str "x; touch /tmp/bridge-rce")
      = .ok (some "--model=\x27x; touch /tmp/bridge-rce\x27") := by
  exact ⟨by decide, by decide, by decide, by rfl, by rfl⟩

-- =========================================================================
-- C3 : the cross-agent scenario payload is dropped by the decoder
-- =========================================================================

/-- The Codex payload of the claim, exactly as written there. -/
def codexScenePayload : RawHookEvent :=
  { agent := some "codex"
    thread_id := some "C"
    cwd := some "/tmp/proj"
    event_type := some "tool_start"
    tool := some "shell" }

/-- C3. The claim expects two sessions (the unlinked claude one plus a fresh
external codex one). The decoder resolves the hook name to `tool_start` (from
`event_type`) and `CodexAdapter.parseHookEvent` only accepts the hook name
`notify`, so the payload is dropped and the supervisor never runs: exactly
one session remains, and no codex session exists. (Had the payload carried
`hook_type: notify`, the missing agent check of C1 would have linked the
claude session instead of creating a codex one — either way, never the two
sessions the claim expects.) -/
theorem codex_event_type_payload_dropped :
    processLine codexScenePayload "33333333-uuid" 2000 "/" = none
    ∧ feedLine { defaultAgent := "claude" } claudeOnlyState codexScenePayload
        "33333333-uuid" 2000 "/" (fun _ => none) "22222222-cccc-dddd"
        = claudeOnlyState
    ∧ claudeOnlyState.sessions.length = 1
    ∧ (claudeOnlyState.sessions.map
        (fun p => p.2.agentSessionId)) = [none] := by
  refine ⟨?_, ?_, ?_, ?_⟩ <;> decide

-- =========================================================================
-- C4 : pasteBuffer removes the temp directory with unlink
-- =========================================================================

theorem jmGet_delete_self {A : Type} (m : List (String × A)) (k : String) :
    jmGet (jmDelete m k) k = none := by
  induction m with
  | nil => rfl
  | cons p r ih =>
    show jmGet (List.filter (fun q => decide (q.1 ≠ k)) (p :: r)) k = none
    rw [List.filter_cons]
    by_cases hp : p.1 = k
    · rw [show (decide (p.1 ≠ k)) = false by simp [hp]]
      simp only [Bool.false_eq_true, if_false]
      exact ih
    · rw [show (decide (p.1 ≠ k)) = true by simp [hp]]
      simp only [if_true, jmGet, if_neg hp]
      exact ih

/-- C4. The claim says both the temp file and the temp directory are removed
on every exit path, the directory by a directory-removal operation. The
`finally` block of `pasteBuffer` calls `unlink` on BOTH paths; `unlink` fails
on a directory and the error is swallowed, so the directory always survives.
(The regression test for issue 6 documents `rmdir` as the intended
operation.) -/
theorem pasteBuffer_tmpdir_not_removed (fs : FS) (tmpFile tmpDir : String)
    (hf : fsGet fs tmpFile = some .file) (hd : fsGet fs tmpDir = some .dir) :
    fsGet (pasteCleanup fs tmpFile tmpDir) tmpFile = none
    ∧ fsGet (pasteCleanup fs tmpFile tmpDir) tmpDir = some .dir := by
  have hne : tmpDir ≠ tmpFile := by
    intro h
    rw [h, hf] at hd
    exact absurd hd (by simp)
  have h1 : fsGet (fsRemove fs tmpFile) tmpDir = some FNode.dir := by
    unfold fsGet fsRemove
    rw [jmGet_delete_ne fs tmpFile tmpDir hne]
    exact hd
  have e1 : unlinkFS fs tmpFile = .ok (fsRemove fs tmpFile) := by
    unfold unlinkFS
    rw [hf]
  have e2 : unlinkFS (fsRemove fs tmpFile) tmpDir = .error "EISDIR" := by
    unfold unlinkFS
    rw [h1]
  constructor
  · simp only [pasteCleanup, e1, e2]
    exact jmGet_delete_self fs tmpFile
  · simp only [pasteCleanup, e1, e2]
    exact h1

/-- Witness for C4 at a concrete filesystem: a temp dir holding the prompt
file; after cleanup the file is gone and the directory remains. -/
theorem pasteBuffer_tmpdir_not_removed_w :
    fsGet (pasteCleanup [("/tmp/tb-x", FNode.dir), ("/tmp/tb-x/p.txt", FNode.file)]
      "/tmp/tb-x/p.txt" "/tmp/tb-x") "/tmp/tb-x/p.txt" = none
    ∧ fsGet (pasteCleanup [("/tmp/tb-x", FNode.dir), ("/tmp/tb-x/p.txt", FNode.file)]
      "/tmp/tb-x/p.txt" "/tmp/tb-x") "/tmp/tb-x" = some .dir :=
  pasteBuffer_tmpdir_not_removed
    [("/tmp/tb-x", FNode.dir), ("/tmp/tb-x/p.txt", FNode.file)]
    "/tmp/tb-x/p.txt" "/tmp/tb-x" (by decide) (by decide)

-- =========================================================================
-- C10 : createSession leaves the state untouched on failure
-- =========================================================================

/-- C10. If no adapter is registered for the requested agent, or creating
the tmux session fails, `createSession` throws before any mutation: no
session is inserted, the dirty flag is untouched, no `session:created` is
emitted (the whole state is unchanged). -/
theorem createSession_error_no_mutation (cfg : Config) (st : SMState)
    (opts : CreateOptions) (adapters : List String) (tmuxOk : Bool)
    (freshId : String) (resolve : String → Option String) (home : Option String)
    (now : Nat)
    (h : (opts.agent.getD cfg.defaultAgent) ∉ adapters ∨ tmuxOk = false) :
    (∃ e, (createSession cfg st opts adapters tmuxOk freshId resolve home now).1
        = .error e)
    ∧ (createSession cfg st opts adapters tmuxOk freshId resolve home now).2.sessions
        = st.sessions
    ∧ (createSession cfg st opts adapters tmuxOk freshId resolve home now).2.dirty
        = st.dirty
    ∧ (createSession cfg st opts adapters tmuxOk freshId resolve home now).2.log
        = st.log := by
  unfold createSession
  by_cases ha : (opts.agent.getD cfg.defaultAgent) ∈ adapters
  · have htm : tmuxOk = false := by
      rcases h with h1 | h1
      · exact absurd ha h1
      · exact h1
    rw [if_neg (by simpa using ha)]
    rw [if_pos (by simp [htm])]
    exact ⟨⟨"tmux createSession failed", rfl⟩, rfl, rfl, rfl⟩
  · rw [if_pos (by simpa using ha)]
    exact ⟨⟨"No adapter registered for agent: " ++ opts.agent.getD cfg.defaultAgent,
      rfl⟩, rfl, rfl, rfl⟩

/-- Witness for C10: creating a `codex` session when only the claude adapter
is registered changes nothing. -/
theorem createSession_error_no_mutation_w :
    ("codex" ∉ ["claude"] ∨ True)
    ∧ ((∃ e, (createSession { defaultAgent := "claude" } claudeOnlyState
        { agent := some "codex" } ["claude"] true "9999" (fun _ => none) none
        3000).1 = .error e)
      ∧ (createSession { defaultAgent := "claude" } claudeOnlyState
        { agent := some "codex" } ["claude"] true "9999" (fun _ => none) none
        3000).2.sessions = claudeOnlyState.sessions
      ∧ (createSession { defaultAgent := "claude" } claudeOnlyState
        { agent := some "codex" } ["claude"] true "9999" (fun _ => none) none
        3000).2.dirty = claudeOnlyState.dirty
      ∧ (createSession { defaultAgent := "claude" } claudeOnlyState
        { agent := some "codex" } ["claude"] true "9999" (fun _ => none) none
        3000).2.log = claudeOnlyState.log) :=
  ⟨Or.inl (by decide),
   createSession_error_no_mutation { defaultAgent := "claude" } claudeOnlyState
     { agent := some "codex" } ["claude"] true "9999" (fun _ => none) none 3000
     (Or.inl (by decide))⟩

-- =========================================================================
-- C9 : lastActivity on event application
-- =========================================================================

/-- C9 (amended). Applying any processed hook event whose kind is NOT
`notification` sets the session's `lastActivity` to the current time: every
branch of the Bridge switch ends in `updateSessionStatus` or
`updateSessionTool`, and both always stamp `lastActivity = Date.now()`.
`notification` events match no case of the switch and leave it unchanged. -/
theorem applyEvent_sets_lastActivity (cfg : Config) (st : SMState)
    (pe : ProcessedEvent) (resolve : String → Option String) (now : Nat)
    (freshId procCwd : String) (h : pe.event.type ≠ .notification) :
    ((applyEvent cfg st pe resolve now freshId procCwd).1).lastActivity = now := by
  unfold applyEvent
  cases hty : pe.event.type
  case notification => exact absurd hty h
  all_goals simp only [updateSessionStatus, updateSessionTool]
  all_goals split <;> rfl

/-- The linked external session used by the C9 counterexample and witness:
the agent map already points at it, its lastActivity is 1000. -/
def linkedState : SMState :=
  { sessions := [("E1",
      { id := "E1"
        name := "proj"
        type := .external
        agent := "claude"
        status := .idle
        cwd := "/tmp/proj"
        createdAt := 500
        lastActivity := 1000
        agentSessionId := some "A" })]
    agentToManagedMap := [("A", "E1")]
    sessionCounter := 0
    dirty := false
    log := [] }

/-- A notification ProcessedEvent for the linked session. -/
def notifPE : ProcessedEvent :=
  { event := { id := "ev-1", timestamp := 2000, type := .notification,
               agent := "claude", message := some "hi" }
    agentSessionId := "A"
    agent := "claude"
    cwd := some "/tmp/proj" }

/-- Counterexample to C9 as stated: a notification event applied at time
2000 to a session whose lastActivity is 1000 leaves lastActivity at 1000 —
the Bridge switch has no case for `notification` and `findOrCreateSession`
does not touch `lastActivity` on an already linked session. -/
theorem notification_keeps_lastActivity :
    ((applyEvent { defaultAgent := "claude" } linkedState notifPE
        (fun _ => none) 2000 "F1" "/").1).lastActivity = 1000
    ∧ ((applyEvent { defaultAgent := "claude" } linkedState notifPE
        (fun _ => none) 2000 "F1" "/").2).sessions.map
        (fun p => p.2.lastActivity) = [1000] := by
  exact ⟨by decide, by decide⟩

/-- Witness for the amended C9 at a concrete stop event. -/
theorem applyEvent_sets_lastActivity_w :
    ((applyEvent { defaultAgent := "claude" } linkedState
        { event := { id := "ev-2", timestamp := 2000, type := .stop,
                     agent := "claude" }
          agentSessionId := "A"
          agent := "claude"
          cwd := some "/tmp/proj" }
        (fun _ => none) 2000 "F1" "/").1).lastActivity = 2000 :=
  applyEvent_sets_lastActivity { defaultAgent := "claude" } linkedState
    { event := { id := "ev-2", timestamp := 2000, type := .stop,
                 agent := "claude" }
      agentSessionId := "A"
      agent := "claude"
      cwd := some "/tmp/proj" }
    (fun _ => none) 2000 "F1" "/" (by decide)

-- =========================================================================
-- C6 : restart
-- =========================================================================

/-- The shape every tmux name in a reachable state has: none, the create-time
name, or a restart name stamped with a time no later than the session's
lastActivity (restart stamps both the name and lastActivity with the same
`Date.now()`, and every later mutation only increases lastActivity). -/
def goodTmuxName (s : Session) : Prop :=
  s.tmuxSession = none ∨ s.tmuxSession = some (createTmuxName s.id) ∨
    ∃ t, t ≤ s.lastActivity ∧ s.tmuxSession = some (restartTmuxName s.id t)

/-- C6. `restart(id)` returns a session only when the target exists, is
internal and is offline (the registered-adapter check is a further necessary
condition); on success the returned session is `working`, its
`agentSessionId` is cleared, every byAgentId entry pointing at it is removed,
and its tmux name differs from the one it had immediately before — the new
name embeds the strictly fresher `Date.now()`. The clock hypothesis states
that `now` is later than every recorded activity, which the source
guarantees because every stored timestamp came from an earlier
`Date.now()`. -/
theorem restart_spec (st : SMState) (id : String) (adapters : List String)
    (now : Nat) (s' : Session)
    (hwf : wfIds st)
    (hgood : ∀ p ∈ st.sessions, goodTmuxName p.2)
    (hclock : ∀ p ∈ st.sessions, p.2.lastActivity < now)
    (hres : (restart st id adapters now).1 = some s') :
    ∃ s, jmGet st.sessions id = some s ∧ s.type = .internal
      ∧ s.status = .offline ∧ s'.status = .working ∧ s'.agentSessionId = none
      ∧ s'.tmuxSession ≠ s.tmuxSession
      ∧ ∀ q ∈ (restart st id adapters now).2.agentToManagedMap, q.2 ≠ id := by
  cases hg : jmGet st.sessions id with
  | none =>
    unfold restart at hres
    rw [hg] at hres
    simp at hres
  | some s =>
    unfold restart at hres
    rw [hg] at hres
    dsimp only at hres
    have hmem : (id, s) ∈ st.sessions := mem_of_jmGet _ _ _ hg
    have hid : s.id = id := hwf (id, s) hmem
    by_cases he : s.type = .external
    · rw [if_pos he] at hres
      simp at hres
    rw [if_neg he] at hres
    by_cases ho : s.status ≠ .offline
    · rw [if_pos ho] at hres
      simp at hres
    rw [if_neg ho] at hres
    by_cases hadap : ¬ s.agent ∈ adapters
    · rw [if_pos hadap] at hres
      simp at hres
    rw [if_neg hadap] at hres
    have hoff : s.status = .offline := not_not.mp ho
    have hint : s.type = .internal := by
      cases hti : s.type
      · rfl
      · exact absurd hti he
    have hs' : s' = { s with
        tmuxSession := some (restartTmuxName s.id now)
        agentSessionId := none
        status := .working
        lastActivity := now } := by
      have h2 : some ({ s with
          tmuxSession := some (restartTmuxName s.id now)
          agentSessionId := none
          status := .working
          lastActivity := now } : Session) = some s' := hres
      exact (Option.some.inj h2).symm
    have hmap : (restart st id adapters now).2.agentToManagedMap
        = st.agentToManagedMap.filter (fun p => decide (p.2 ≠ s.id)) := by
      unfold restart
      rw [hg]
      dsimp only
      rw [if_neg he, if_neg ho, if_neg hadap]
    refine ⟨s, rfl, hint, hoff, by rw [hs'], by rw [hs'], ?_, ?_⟩
    · rw [hs']
      show some (restartTmuxName s.id now) ≠ s.tmuxSession
      have hgs : goodTmuxName s := hgood (id, s) hmem
      rcases hgs with h1 | h1 | ⟨t, hle, h1⟩
      · rw [h1]
        simp
      · rw [h1]
        intro heq
        have h2 := (Option.some.inj heq).symm
        exact createName_ne_restartName s.id now h2
      · rw [h1]
        intro heq
        have heq2 := (Option.some.inj heq).symm
        have hnt : t = now := restartName_inj s.id t now heq2
        have hlt : s.lastActivity < now := hclock (id, s) hmem
        omega
    · intro q hq
      rw [hmap] at hq
      have hdec := List.of_mem_filter hq
      have hne : q.2 ≠ s.id := of_decide_eq_true hdec
      rw [hid] at hne
      exact hne

/-- The offline internal session state used by the C6 witness. -/
def offlineState : SMState :=
  { sessions := [("I1",
      { id := "I1"
        name := "proj"
        type := .internal
        agent := "claude"
        status := .offline
        cwd := "/tmp/proj"
        createdAt := 1
        lastActivity := 5
        tmuxSession := some (createTmuxName "I1")
        agentSessionId := some "OLD" })]
    agentToManagedMap := [("OLD", "I1")]
    sessionCounter := 0
    dirty := false
    log := [] }

/-- Witness for C6 at a concrete restart of the offline session at time 7. -/
theorem restart_spec_w :
    ∃ s, jmGet offlineState.sessions "I1" = some s ∧ s.type = .internal
      ∧ s.status = .offline
      ∧ ({ id := "I1"
           name := "proj"
           type := .internal
           agent := "claude"
           status := .working
           cwd := "/tmp/proj"
           createdAt := 1
           lastActivity := 7
           tmuxSession := some (restartTmuxName "I1" 7)
           agentSessionId := none } : Session).status = .working
      ∧ ({ id := "I1"
           name := "proj"
           type := .internal
           agent := "claude"
           status := .working
           cwd := "/tmp/proj"
           createdAt := 1
           lastActivity := 7
           tmuxSession := some (restartTmuxName "I1" 7)
           agentSessionId := none } : Session).agentSessionId = none
      ∧ ({ id := "I1"
           name := "proj"
           type := .internal
           agent := "claude"
           status := .working
           cwd := "/tmp/proj"
           createdAt := 1
           lastActivity := 7
           tmuxSession := some (restartTmuxName "I1" 7)
           agentSessionId := none } : Session).tmuxSession ≠ s.tmuxSession
      ∧ ∀ q ∈ (restart offlineState "I1" ["claude"] 7).2.agentToManagedMap,
          q.2 ≠ "I1" :=
  restart_spec offlineState "I1" ["claude"] 7
    { id := "I1"
      name := "proj"
      type := .internal
      agent := "claude"
      status := .working
      cwd := "/tmp/proj"
      createdAt := 1
      lastActivity := 7
      tmuxSession := some (restartTmuxName "I1" 7)
      agentSessionId := none }
    (by
      intro p hp
      have hpe := List.mem_singleton.mp hp
      subst hpe
      rfl)
    (by
      intro p hp
      have hpe := List.mem_singleton.mp hp
      subst hpe
      exact Or.inr (Or.inl rfl))
    (by
      intro p hp
      have hpe := List.mem_singleton.mp hp
      subst hpe
      decide)
    (by decide)

-- =========================================================================
-- C5 : byAgentId consistency
-- =========================================================================

theorem amcLinkOrCreate (cfg : Config) (st : SMState) (aid agent cwd : String)
    (terminal : Option TerminalInfo) (transcriptPath : Option String)
    (now : Nat) (freshId : String)
    (hwf : wfIds st) (hnd : sessionKeysNodup st)
    (hfresh : jmGet st.sessions freshId = none)
    (hkeys : ∀ q ∈ st.agentToManagedMap, q.1 ≠ "")
    (hc : agentMapConsistent st = true) :
    agentMapConsistent (linkOrCreate cfg st aid agent cwd terminal
      transcriptPath now freshId).2 = true := by
  rw [agentMapConsistent_iff] at hc ⊢
  unfold linkOrCreate
  cases hfind : st.sessions.find? (fun p => linkable p.2 cwd now) with
  | some pr =>
    obtain ⟨k0, s⟩ := pr
    dsimp only
    have hmem : (k0, s) ∈ st.sessions := List.mem_of_find?_eq_some hfind
    have hid : s.id = k0 := hwf (k0, s) hmem
    have hlink : linkable s cwd now = true := by
      have := List.find?_some hfind
      simpa using this
    have hasid : (truthy s.agentSessionId).isNone = true := by
      unfold linkable at hlink
      simp only [Bool.and_eq_true] at hlink
      exact hlink.1.1.2
    have hgetk : jmGet st.sessions s.id = some s := by
      rw [hid]
      exact jmGet_of_mem_nodup _ _ _ hnd hmem
    intro q hq
    rcases mem_jmSet _ _ _ q hq with rfl | ⟨hqm, hqa⟩
    · refine ⟨{ s with
        agentSessionId := some aid
        terminal := if terminal.isSome then terminal else s.terminal
        transcriptPath :=
          if (truthy transcriptPath).isSome then transcriptPath
          else s.transcriptPath }, ?_, rfl⟩
      show jmGet (jmUpdate st.sessions s.id _) s.id = _
      exact jmGet_update_self _ _ _ (jmHas_of_get _ _ _ hgetk)
    · obtain ⟨t, hgt, hat⟩ := hc q hqm
      have hqne : q.2 ≠ s.id := by
        intro hqe
        rw [hqe] at hgt
        have hts : t = s := by
          rw [hgt] at hgetk
          exact Option.some.inj hgetk
        rw [hts] at hat
        rw [hat] at hasid
        have hq1 : q.1 ≠ "" := hkeys q hqm
        simp [truthy, hq1] at hasid
      refine ⟨t, ?_, hat⟩
      show jmGet (jmUpdate st.sessions s.id _) q.2 = some t
      rw [jmGet_update_ne _ _ _ _ hqne]
      exact hgt
  | none =>
    dsimp only
    by_cases htrack : cfg.trackExternalSessions
    · rw [if_neg (by simp [htrack])]
      dsimp only
      intro q hq
      rcases mem_jmSet _ _ _ q hq with rfl | ⟨hqm, hqa⟩
      · exact ⟨_, jmGet_set_self _ _ _, rfl⟩
      · obtain ⟨t, hgt, hat⟩ := hc q hqm
        have hqne : q.2 ≠ freshId := by
          intro hqe
          rw [hqe, hfresh] at hgt
          exact absurd hgt (by simp)
        refine ⟨t, ?_, hat⟩
        rw [jmGet_set_ne _ _ _ _ hqne]
        exact hgt
    · rw [if_pos (by simp [htrack])]
      exact hc

theorem amcFind (cfg : Config) (st : SMState) (aid agent cwd0 : String)
    (terminal : Option TerminalInfo) (transcriptPath : Option String)
    (resolve : String → Option String) (now : Nat) (freshId : String)
    (hwf : wfIds st) (hnd : sessionKeysNodup st)
    (hfresh : jmGet st.sessions freshId = none)
    (hkeys : ∀ q ∈ st.agentToManagedMap, q.1 ≠ "")
    (hc : agentMapConsistent st = true) :
    agentMapConsistent (findOrCreateSession cfg st aid agent cwd0 terminal
      transcriptPath resolve now freshId).2 = true := by
  unfold findOrCreateSession
  dsimp only
  cases hm : jmGet st.agentToManagedMap aid with
  | some eid =>
    dsimp only
    cases hgs : jmGet st.sessions eid with
    | some s =>
      dsimp only
      rw [agentMapConsistent_iff] at hc ⊢
      have hmem : (eid, s) ∈ st.sessions := mem_of_jmGet _ _ _ hgs
      have hid : s.id = eid := hwf (eid, s) hmem
      intro q hq
      obtain ⟨t, hgt, hat⟩ := hc q hq
      by_cases hqe : q.2 = s.id
      · have hts : t = s := by
          rw [hqe, hid] at hgt
          rw [hgs] at hgt
          exact (Option.some.inj hgt).symm
        refine ⟨{ s with
          terminal := if terminal.isSome then terminal else s.terminal
          transcriptPath :=
            if (truthy transcriptPath).isSome && (truthy s.transcriptPath).isNone then
              transcriptPath
            else s.transcriptPath }, ?_, ?_⟩
        · rw [hqe]
          exact jmGet_update_self _ _ _ (by rw [hid]; exact jmHas_of_get _ _ _ hgs)
        · show s.agentSessionId = some q.1
          rw [← hts]
          exact hat
      · refine ⟨t, ?_, hat⟩
        rw [jmGet_update_ne _ _ _ _ hqe]
        exact hgt
    | none =>
      exact amcLinkOrCreate cfg st aid agent _ terminal transcriptPath now freshId
        hwf hnd hfresh hkeys hc
  | none =>
    exact amcLinkOrCreate cfg st aid agent _ terminal transcriptPath now freshId
      hwf hnd hfresh hkeys hc

theorem amcDelete (st : SMState) (delId : String)
    (hc : agentMapConsistent st = true) :
    agentMapConsistent (deleteSession st delId).2 = true := by
  rw [agentMapConsistent_iff] at hc ⊢
  unfold deleteSession
  cases hg : jmGet st.sessions delId with
  | none => exact hc
  | some s =>
    dsimp only
    intro q hq
    have hmf := List.mem_filter.mp hq
    have hq2 : q.2 ≠ delId := of_decide_eq_true hmf.2
    obtain ⟨t, hgt, hat⟩ := hc q hmf.1
    refine ⟨t, ?_, hat⟩
    rw [jmGet_delete_ne _ _ _ hq2]
    exact hgt

theorem amcRestart (st : SMState) (rId : String) (adapters : List String)
    (now : Nat) (hc : agentMapConsistent st = true) :
    agentMapConsistent (restart st rId adapters now).2 = true := by
  rw [agentMapConsistent_iff] at hc ⊢
  unfold restart
  cases hg : jmGet st.sessions rId with
  | none => exact hc
  | some s =>
    dsimp only
    by_cases he : s.type = .external
    · rw [if_pos he]
      exact hc
    rw [if_neg he]
    by_cases ho : s.status ≠ .offline
    · rw [if_pos ho]
      exact hc
    rw [if_neg ho]
    by_cases hadap : ¬ s.agent ∈ adapters
    · rw [if_pos hadap]
      exact hc
    rw [if_neg hadap]
    intro q hq
    have hmf := List.mem_filter.mp hq
    have hq2 : q.2 ≠ s.id := of_decide_eq_true hmf.2
    obtain ⟨t, hgt, hat⟩ := hc q hmf.1
    refine ⟨t, ?_, hat⟩
    rw [jmGet_update_ne _ _ _ _ hq2]
    exact hgt

/-- C5. After each of the state-mutating supervisor operations —
findOrCreateSession, deleteSession, restart — every entry `(a → s)` of
`byAgentId` points at an existing session in `byId` whose `agentSessionId`
is `a`, provided the invariant held before. The auxiliary hypotheses hold in
every reachable state: sessions are keyed by their own id, JS Map keys are
unique, `randomUUID()` is fresh, and the mapped agent session ids are
nonempty strings (the decoder never produces an empty one). -/
theorem agentMap_consistency_preserved (cfg : Config) (st : SMState)
    (aid agent cwd0 : String) (terminal : Option TerminalInfo)
    (transcriptPath : Option String) (resolve : String → Option String)
    (now : Nat) (freshId : String) (delId rId : String) (adapters : List String)
    (hwf : wfIds st) (hnd : sessionKeysNodup st)
    (hfresh : jmGet st.sessions freshId = none)
    (hkeys : ∀ q ∈ st.agentToManagedMap, q.1 ≠ "")
    (hc : agentMapConsistent st = true) :
    agentMapConsistent (findOrCreateSession cfg st aid agent cwd0 terminal
      transcriptPath resolve now freshId).2 = true
    ∧ agentMapConsistent (deleteSession st delId).2 = true
    ∧ agentMapConsistent (restart st rId adapters now).2 = true :=
  ⟨amcFind cfg st aid agent cwd0 terminal transcriptPath resolve now freshId
      hwf hnd hfresh hkeys hc,
   amcDelete st delId hc,
   amcRestart st rId adapters now hc⟩

/-- Witness for C5 on the linked one-session state: linking a second agent
id, deleting the session and restarting it all preserve the invariant. -/
theorem agentMap_consistency_preserved_w :
    agentMapConsistent (findOrCreateSession { defaultAgent := "claude" }
      linkedState "B" "claude" "/tmp/proj" none none (fun _ => none) 2000
      "F9").2 = true
    ∧ agentMapConsistent (deleteSession linkedState "E1").2 = true
    ∧ agentMapConsistent (restart linkedState "E1" ["claude"] 2000).2 = true :=
  agentMap_consistency_preserved { defaultAgent := "claude" } linkedState
    "B" "claude" "/tmp/proj" none none (fun _ => none) 2000 "F9" "E1" "E1"
    ["claude"]
    (by
      intro p hp
      have hpe := List.mem_singleton.mp hp
      subst hpe
      rfl)
    (by
      show (linkedState.sessions.map Prod.fst).Nodup
      decide)
    (by decide)
    (by
      intro q hq
      have hqe := List.mem_singleton.mp hq
      subst hqe
      decide)
    (by decide)

-- =========================================================================
-- C7 : forceSave-then-load round trip
-- =========================================================================

theorem jmHas_append {A : Type} (m l : List (String × A)) (k : String) :
    jmHas (m ++ l) k = (jmHas m k || jmHas l k) := by
  induction m with
  | nil => rfl
  | cons p r ih =>
    by_cases hp : p.1 = k
    · simp [jmHas, hp]
    · simp only [List.cons_append, jmHas, if_neg hp]
      exact ih

theorem foldl_jmSet_keyed {A B : Type} (key : B → String) (val : B → A) :
    ∀ (l : List B) (acc : List (String × A)),
      (∀ b ∈ l, jmHas acc (key b) = false) → (l.map key).Nodup →
      l.foldl (fun m b => jmSet m (key b) (val b)) acc
        = acc ++ l.map (fun b => (key b, val b)) := by
  intro l
  induction l with
  | nil =>
    intro acc _ _
    simp
  | cons b r ih =>
    intro acc hno hnd
    have hb : jmHas acc (key b) = false := hno b (List.mem_cons_self b r)
    have hset : jmSet acc (key b) (val b) = acc ++ [(key b, val b)] := by
      unfold jmSet
      rw [if_neg (by simp [hb])]
    have hnd1 : key b ∉ r.map key ∧ (r.map key).Nodup := by
      have h1 := hnd
      rw [List.map_cons, List.nodup_cons] at h1
      exact h1
    rw [List.foldl_cons, hset]
    rw [ih (acc ++ [(key b, val b)]) ?_ hnd1.2]
    · simp
    · intro c hc
      have h1 : jmHas acc (key c) = false := hno c (List.mem_cons_of_mem _ hc)
      have h2 : ¬ key b = key c := by
        intro he
        exact hnd1.1 (he ▸ List.mem_map.mpr ⟨c, hc, rfl⟩)
      rw [jmHas_append]
      simp [h1, jmHas, h2]

/-- C7. `forceSave(); load()` restores exactly the byId contents, except
that every internal session comes back `offline` with its terminal cleared
(`loadFix`); the byAgentId map is rebuilt, entry for entry, from the
persisted `agentToManagedMap` list; the counter survives and the state is
clean. Hypotheses hold in every reachable state: sessions keyed by their id,
unique JS Map keys. -/
theorem forceSave_load_roundtrip (st : SMState)
    (hwf : wfIds st) (hnd : sessionKeysNodup st)
    (hmnd : (st.agentToManagedMap.map Prod.fst).Nodup) :
    (loadState (forceSaveState st).2 (forceSaveState st).1).sessions
        = st.sessions.map (fun p => (p.1, loadFix p.2))
    ∧ (loadState (forceSaveState st).2 (forceSaveState st).1).agentToManagedMap
        = st.agentToManagedMap
    ∧ (loadState (forceSaveState st).2 (forceSaveState st).1).sessionCounter
        = st.sessionCounter
    ∧ (loadState (forceSaveState st).2 (forceSaveState st).1).dirty = false := by
  refine ⟨?_, ?_, rfl, rfl⟩
  · show ((st.sessions.map (fun p => p.2)).foldl
        (fun m s => jmSet m s.id (loadFix s)) [])
      = st.sessions.map (fun p => (p.1, loadFix p.2))
    rw [foldl_jmSet_keyed (fun s : Session => s.id) (fun s => loadFix s)
      (st.sessions.map (fun p => p.2)) [] (fun b _ => rfl) ?_]
    · rw [List.nil_append, List.map_map]
      apply List.map_congr_left
      intro p hp
      have hpid : p.2.id = p.1 := hwf p hp
      simp [Function.comp, hpid]
    · rw [List.map_map]
      have he : st.sessions.map ((fun s : Session => s.id) ∘ (fun p => p.2))
          = st.sessions.map Prod.fst := by
        apply List.map_congr_left
        intro p hp
        exact hwf p hp
      rw [he]
      exact hnd
  · show (st.agentToManagedMap.foldl (fun m q => jmSet m q.1 q.2) [])
      = st.agentToManagedMap
    rw [foldl_jmSet_keyed (fun q : String × String => q.1)
      (fun q : String × String => q.2) st.agentToManagedMap []
      (fun b _ => rfl) hmnd]
    simp

/-- A mixed state for the C7 witness: one internal session (working, with a
terminal and a tool) and one external one, both mapped. -/
def mixedState : SMState :=
  { sessions := [
      ("I1",
        { id := "I1"
          name := "proj"
          type := .internal
          agent := "claude"
          status := .working
          cwd := "/tmp/proj"
          createdAt := 1
          lastActivity := 5
          tmuxSession := some "cab-I1"
          agentSessionId := some "A"
          currentTool := some "Bash"
          terminal := some { tmuxPane := some "%3" } }),
      ("E1",
        { id := "E1"
          name := "web"
          type := .external
          agent := "codex"
          status := .idle
          cwd := "/tmp/web"
          createdAt := 2
          lastActivity := 6
          agentSessionId := some "B" })]
    agentToManagedMap := [("A", "I1"), ("B", "E1")]
    sessionCounter := 3
    dirty := true
    log := [] }

/-- Witness for C7 on the mixed state. -/
theorem forceSave_load_roundtrip_w :
    (loadState (forceSaveState mixedState).2 (forceSaveState mixedState).1).sessions
        = mixedState.sessions.map (fun p => (p.1, loadFix p.2))
    ∧ (loadState (forceSaveState mixedState).2
        (forceSaveState mixedState).1).agentToManagedMap
        = mixedState.agentToManagedMap
    ∧ (loadState (forceSaveState mixedState).2
        (forceSaveState mixedState).1).sessionCounter
        = mixedState.sessionCounter
    ∧ (loadState (forceSaveState mixedState).2
        (forceSaveState mixedState).1).dirty = false :=
  forceSave_load_roundtrip mixedState
    (by
      show ∀ p ∈ mixedState.sessions, p.2.id = p.1
      decide)
    (by
      show (mixedState.sessions.map Prod.fst).Nodup
      decide)
    (by decide)

-- =========================================================================
-- C8 : the currentTool invariant
-- =========================================================================

/-- The per-session currentTool invariant. -/
def sessionToolOk (s : Session) : Prop := s.status ≠ .working → s.currentTool = none

theorem toolOk_update (l : List (String × Session)) (k : String) (v : Session)
    (hl : ∀ p ∈ l, sessionToolOk p.2) (hv : sessionToolOk v) :
    ∀ p ∈ jmUpdate l k v, sessionToolOk p.2 := by
  intro p hp
  rcases mem_jmUpdate l k v p hp with rfl | ⟨hm, _⟩
  · exact hv
  · exact hl p hm

theorem toolOk_set (l : List (String × Session)) (k : String) (v : Session)
    (hl : ∀ p ∈ l, sessionToolOk p.2) (hv : sessionToolOk v) :
    ∀ p ∈ jmSet l k v, sessionToolOk p.2 := by
  intro p hp
  rcases mem_jmSet l k v p hp with rfl | ⟨hm, _⟩
  · exact hv
  · exact hl p hm

theorem toolInvUpdateStatus (st : SMState) (s : Session) (ns : SessionStatus)
    (now : Nat) (hc : toolInvariant st = true) (hs : sessionToolOk s) :
    toolInvariant (updateSessionStatus st s ns now).2 = true
    ∧ sessionToolOk (updateSessionStatus st s ns now).1 := by
  rw [toolInvariant_iff] at hc
  unfold updateSessionStatus
  by_cases he : s.status = ns
  · rw [if_pos he]
    dsimp only
    refine ⟨?_, fun h => hs h⟩
    rw [toolInvariant_iff]
    exact toolOk_update _ _ _ hc (fun h => hs h)
  · rw [if_neg he]
    dsimp only
    have hv : sessionToolOk { s with
        status := ns
        lastActivity := now
        currentTool := if ns ≠ .working then none else s.currentTool } := by
      intro h
      show (if ns ≠ .working then none else s.currentTool) = none
      rw [if_pos h]
    refine ⟨?_, hv⟩
    rw [toolInvariant_iff]
    exact toolOk_update _ _ _ hc hv

theorem usStatusWorking (st : SMState) (s : Session) (now : Nat) :
    (updateSessionStatus st s .working now).1.status = .working := by
  unfold updateSessionStatus
  by_cases he : s.status = .working
  · rw [if_pos he]
    exact he
  · rw [if_neg he]

theorem toolInvUpdateTool (st : SMState) (s : Session) (tool : Option String)
    (now : Nat) (hc : toolInvariant st = true)
    (hok : tool = none ∨ s.status = .working) :
    toolInvariant (updateSessionTool st s tool now).2 = true := by
  rw [toolInvariant_iff] at hc ⊢
  unfold updateSessionTool
  dsimp only
  apply toolOk_update _ _ _ hc
  intro h
  rcases hok with h1 | h1
  · exact h1
  · exact absurd h1 h

theorem toolInvLinkOrCreate (cfg : Config) (st : SMState) (aid agent cwd : String)
    (terminal : Option TerminalInfo) (transcriptPath : Option String)
    (now : Nat) (freshId : String) (hc : toolInvariant st = true) :
    toolInvariant (linkOrCreate cfg st aid agent cwd terminal transcriptPath
      now freshId).2 = true
    ∧ sessionToolOk (linkOrCreate cfg st aid agent cwd terminal transcriptPath
      now freshId).1 := by
  rw [toolInvariant_iff] at hc
  unfold linkOrCreate
  cases hfind : st.sessions.find? (fun p => linkable p.2 cwd now) with
  | some pr =>
    obtain ⟨k0, s⟩ := pr
    dsimp only
    have hmem : (k0, s) ∈ st.sessions := List.mem_of_find?_eq_some hfind
    have hs : sessionToolOk s := hc (k0, s) hmem
    refine ⟨?_, fun h => hs h⟩
    rw [toolInvariant_iff]
    exact toolOk_update _ _ _ hc (fun h => hs h)
  | none =>
    dsimp only
    by_cases htr : cfg.trackExternalSessions
    · rw [if_neg (by simp [htr])]
      dsimp only
      refine ⟨?_, fun h => absurd rfl h⟩
      rw [toolInvariant_iff]
      exact toolOk_set _ _ _ hc (fun h => absurd rfl h)
    · rw [if_pos (by simp [htr])]
      exact ⟨by rw [toolInvariant_iff]; exact hc, fun h => absurd rfl h⟩

theorem toolInvFind (cfg : Config) (st : SMState) (aid agent cwd0 : String)
    (terminal : Option TerminalInfo) (transcriptPath : Option String)
    (resolve : String → Option String) (now : Nat) (freshId : String)
    (hc : toolInvariant st = true) :
    toolInvariant (findOrCreateSession cfg st aid agent cwd0 terminal
      transcriptPath resolve now freshId).2 = true
    ∧ sessionToolOk (findOrCreateSession cfg st aid agent cwd0 terminal
      transcriptPath resolve now freshId).1 := by
  unfold findOrCreateSession
  dsimp only
  cases hm : jmGet st.agentToManagedMap aid with
  | some eid =>
    dsimp only
    cases hgs : jmGet st.sessions eid with
    | some s =>
      dsimp only
      have hmem : (eid, s) ∈ st.sessions := mem_of_jmGet _ _ _ hgs
      rw [toolInvariant_iff] at hc
      have hs : sessionToolOk s := hc (eid, s) hmem
      refine ⟨?_, fun h => hs h⟩
      rw [toolInvariant_iff]
      exact toolOk_update _ _ _ hc (fun h => hs h)
    | none =>
      exact toolInvLinkOrCreate cfg st aid agent _ terminal transcriptPath now
        freshId hc
  | none =>
    exact toolInvLinkOrCreate cfg st aid agent _ terminal transcriptPath now
      freshId hc

theorem toolInvApply (cfg : Config) (st : SMState) (pe : ProcessedEvent)
    (resolve : String → Option String) (now : Nat) (freshId procCwd : String)
    (hc : toolInvariant st = true) :
    toolInvariant (applyEvent cfg st pe resolve now freshId procCwd).2 = true := by
  obtain ⟨h1, h2⟩ := toolInvFind cfg st pe.agentSessionId pe.agent
    (pe.cwd.getD procCwd) pe.terminal none resolve now freshId hc
  unfold applyEvent
  dsimp only
  cases hty : pe.event.type
  case pre_tool_use =>
    obtain ⟨h3, h4⟩ := toolInvUpdateStatus _ _ .working now h1 h2
    exact toolInvUpdateTool _ _ _ _ h3 (Or.inr (usStatusWorking _ _ _))
  case post_tool_use => exact toolInvUpdateTool _ _ _ _ h1 (Or.inl rfl)
  case stop => exact (toolInvUpdateStatus _ _ .idle now h1 h2).1
  case subagent_stop => exact (toolInvUpdateStatus _ _ .idle now h1 h2).1
  case user_prompt_submit => exact (toolInvUpdateStatus _ _ .working now h1 h2).1
  case session_end => exact (toolInvUpdateStatus _ _ .offline now h1 h2).1
  case session_start => exact (toolInvUpdateStatus _ _ .working now h1 h2).1
  case notification => exact h1

theorem toolInvCreate (cfg : Config) (st : SMState) (opts : CreateOptions)
    (adapters : List String) (tmuxOk : Bool) (freshId : String)
    (resolve : String → Option String) (home : Option String) (now : Nat)
    (hc : toolInvariant st = true) :
    toolInvariant (createSession cfg st opts adapters tmuxOk freshId resolve
      home now).2 = true := by
  unfold createSession
  by_cases ha : (opts.agent.getD cfg.defaultAgent) ∈ adapters
  · rw [if_neg (by simpa using ha)]
    by_cases htm : tmuxOk = true
    · rw [if_neg (by simp [htm])]
      dsimp only
      rw [toolInvariant_iff] at hc ⊢
      exact toolOk_set _ _ _ hc (fun h => absurd rfl h)
    · rw [if_pos (by simp [htm])]
      exact hc
  · rw [if_pos (by simpa using ha)]
    exact hc

theorem toolInvDelete (st : SMState) (delId : String)
    (hc : toolInvariant st = true) :
    toolInvariant (deleteSession st delId).2 = true := by
  unfold deleteSession
  cases hg : jmGet st.sessions delId with
  | none => exact hc
  | some s =>
    dsimp only
    rw [toolInvariant_iff] at hc ⊢
    intro p hp
    exact hc p (List.mem_filter.mp hp).1

theorem toolInvRestart (st : SMState) (rId : String) (adapters : List String)
    (now : Nat) (hc : toolInvariant st = true) :
    toolInvariant (restart st rId adapters now).2 = true := by
  unfold restart
  cases hg : jmGet st.sessions rId with
  | none => exact hc
  | some s =>
    dsimp only
    by_cases he : s.type = .external
    · rw [if_pos he]
      exact hc
    rw [if_neg he]
    by_cases ho : s.status ≠ .offline
    · rw [if_pos ho]
      exact hc
    rw [if_neg ho]
    by_cases hadap : ¬ s.agent ∈ adapters
    · rw [if_pos hadap]
      exact hc
    rw [if_neg hadap]
    rw [toolInvariant_iff] at hc ⊢
    exact toolOk_update _ _ _ hc (fun h => absurd rfl h)

/-- C8 (amended). The invariant `status ≠ working → currentTool = nil` is
preserved by every in-process supervisor mutation: event application (the
Bridge switch only ever sets a tool right after forcing `working`, and every
transition away from `working` clears it), createSession, deleteSession,
restart and findOrCreateSession. (`load()` is the exception the
counterexample exhibits: it forces internal sessions offline WITHOUT
clearing `currentTool`.) -/
theorem toolInvariant_preserved_in_process (cfg : Config) (st : SMState)
    (pe : ProcessedEvent) (resolve : String → Option String) (now : Nat)
    (freshId procCwd : String) (opts : CreateOptions) (adapters : List String)
    (tmuxOk : Bool) (home : Option String) (delId rId aid agent cwd0 : String)
    (terminal : Option TerminalInfo) (transcriptPath : Option String)
    (hc : toolInvariant st = true) :
    toolInvariant (applyEvent cfg st pe resolve now freshId procCwd).2 = true
    ∧ toolInvariant (createSession cfg st opts adapters tmuxOk freshId resolve
        home now).2 = true
    ∧ toolInvariant (deleteSession st delId).2 = true
    ∧ toolInvariant (restart st rId adapters now).2 = true
    ∧ toolInvariant (findOrCreateSession cfg st aid agent cwd0 terminal
        transcriptPath resolve now freshId).2 = true :=
  ⟨toolInvApply cfg st pe resolve now freshId procCwd hc,
   toolInvCreate cfg st opts adapters tmuxOk freshId resolve home now hc,
   toolInvDelete st delId hc,
   toolInvRestart st rId adapters now hc,
   (toolInvFind cfg st aid agent cwd0 terminal transcriptPath resolve now
     freshId hc).1⟩

/-- Witness for the amended C8 on the mixed state (one working session with
a tool, one idle session without). -/
theorem toolInvariant_preserved_in_process_w :
    toolInvariant (applyEvent { defaultAgent := "claude" } mixedState notifPE
      (fun _ => none) 2500 "F7" "/").2 = true
    ∧ toolInvariant (createSession { defaultAgent := "claude" } mixedState {}
        ["claude"] true "F7" (fun _ => none) none 2500).2 = true
    ∧ toolInvariant (deleteSession mixedState "I1").2 = true
    ∧ toolInvariant (restart mixedState "I1" ["claude"] 2500).2 = true
    ∧ toolInvariant (findOrCreateSession { defaultAgent := "claude" } mixedState
        "Z" "claude" "/tmp/proj" none none (fun _ => none) 2500 "F7").2 = true :=
  toolInvariant_preserved_in_process { defaultAgent := "claude" } mixedState
    notifPE (fun _ => none) 2500 "F7" "/" {} ["claude"] true none "I1" "I1"
    "Z" "claude" "/tmp/proj" none none (by decide)

/-- A working internal session with a running tool, built by the operations
themselves: createSession at t=1000 in /tmp/proj, then a claude
`pre_tool_use` hook event (tool Bash) at t=1500, which links the internal
session and sets status working with currentTool Bash. -/
def workingWithTool : SMState :=
  (applyEvent { defaultAgent := "claude" }
    (createSession { defaultAgent := "claude" } {} { cwd := some "/tmp/proj" }
      ["claude"] true "aaaabbbb-1111" (fun _ => none) none 1000).2
    { event := { id := "e1", timestamp := 1500, type := .pre_tool_use,
                 agent := "claude", tool := some "Bash" }
      agentSessionId := "A"
      agent := "claude"
      cwd := some "/tmp/proj" }
    (fun _ => none) 1500 "F2" "/").2

/-- Counterexample to C8 as stated: the reachable state `workingWithTool`
satisfies the invariant, but after `forceSave(); load()` its internal
session is `offline` while `currentTool` is still `"Bash"` — `load` forces
the status and clears the terminal but never clears the tool. -/
theorem toolInvariant_broken_by_load :
    toolInvariant workingWithTool = true
    ∧ toolInvariant
        (loadState (forceSaveState workingWithTool).2
          (forceSaveState workingWithTool).1) = false
    ∧ ((loadState (forceSaveState workingWithTool).2
          (forceSaveState workingWithTool).1).sessions.map
        (fun p => (p.2.status, p.2.currentTool)))
      = [(SessionStatus.offline, some "Bash")] := by
  refine ⟨?_, ?_, ?_⟩ <;> decide

end CAB
